import Mathlib

/-!
Verification development for the ndcube core: a shallow embedding of
`ndcube/cube_utils.py` (sequence slice resolution) and
`ndcube/extra_coords/lookup_table_coord.py` (lazy lookup-table coordinates),
with theorems settling the behavioural claims about these modules.

Python machine-level conventions used throughout the embedding:
integers are Lean `Int`; a Python exception is an explicit `Except` error
carrying the exception's kind; Python `slice` objects keep their optional
fields; list indexing follows Python semantics (negative wrap-around,
`IndexError` when out of range).
-/

set_option linter.unusedVariables false

deriving instance DecidableEq for Except

namespace NDCube

/-- The kinds of Python exceptions the embedded code can raise. -/
inductive PyError where
  | typeError : PyError
  | valueError : PyError
  | indexError : PyError
  | nameError : PyError
  | attributeError : PyError
  | assertionError : PyError
  | unitsError : PyError
deriving Repr, DecidableEq

/-- A Python `slice` object: `slice(start, stop, step)`, each field
possibly `None`. -/
structure PySlice where
  start : Option Int
  stop : Option Int
  step : Option Int
deriving Repr, DecidableEq

/-- A single index element: an `int` or a `slice`. -/
inductive PyIndex where
  | int : Int → PyIndex
  | slice : PySlice → PyIndex
deriving Repr, DecidableEq

/-- An index expression: an `int`, a `slice`, or a tuple of those. -/
inductive PyItem where
  | int : Int → PyItem
  | slice : PySlice → PyItem
  | tuple : List PyIndex → PyItem
deriving Repr, DecidableEq

/-- View a single index element as an item. -/
def PyIndex.toItem : PyIndex → PyItem
  | .int i => .int i
  | .slice s => .slice s

/-- `True` exactly for the integer elements, as tested by
`isinstance(it, Integral)`. -/
def PyIndex.isInt : PyIndex → Bool
  | .int _ => true
  | .slice _ => false

/-- The full slice `slice(None)`. -/
def fullSlice : PySlice := ⟨none, none, none⟩

/-- Number of elements of Python `range(start, stop, step)` for `step ≠ 0`. -/
def pyRangeLen (start stop step : Int) : Nat :=
  if 0 < step then ((stop - start + step - 1) / step).toNat
  else ((start - stop + (-step) - 1) / (-step)).toNat

/-- The elements of Python `range(start, stop, step)`; empty when `step = 0`
(the caller is responsible for raising `ValueError` in that case). -/
def pyRangeList (start stop step : Int) : List Int :=
  (List.range (pyRangeLen start stop step)).map (fun i => start + step * i)

/-- Python `range(start, stop, step)` with explicit integer arguments:
raises `ValueError` when `step = 0`. -/
def pyRange (start stop step : Int) : Except PyError (List Int) :=
  if step = 0 then .error .valueError
  else .ok (pyRangeList start stop step)

/-- Python list indexing `l[i]` with an `int` index: negative indices wrap
around, anything out of range raises `IndexError`. -/
def pyListGet {α : Type} (l : List α) (i : Int) : Except PyError α :=
  let j := if i < 0 then i + l.length else i
  if h : 0 ≤ j ∧ j < l.length then
    .ok (l.get ⟨j.toNat, by omega⟩)
  else
    .error .indexError

/-- The `slice.indices(n)` resolution algorithm of CPython: resolves the
optional/negative `start`/`stop`/`step` of a slice against a length `n`,
raising `ValueError` on a zero step. -/
def sliceIndices (s : PySlice) (n : Int) : Except PyError (Int × Int × Int) :=
  let step := s.step.getD 1
  if step = 0 then .error .valueError
  else
    let lower : Int := if step < 0 then -1 else 0
    let upper : Int := if step < 0 then n - 1 else n
    let start : Int :=
      match s.start with
      | none => if step < 0 then upper else lower
      | some i => if i < 0 then max (i + n) lower else min i upper
    let stop : Int :=
      match s.stop with
      | none => if step < 0 then lower else upper
      | some i => if i < 0 then max (i + n) lower else min i upper
    .ok (start, stop, step)

/-- `SequenceIndex` named tuple of `cube_utils`: the index of a cube within
a sequence and an index along the common axis within that cube. -/
structure SequenceIndex where
  sequence_index : Int
  common_axis_index : Int
deriving Repr, DecidableEq

/-- `SequenceSlice` named tuple of `cube_utils`: the index of a cube within
a sequence and the item to be applied to that cube. -/
structure SequenceSlice where
  sequence_index : Int
  cube_item : PyItem
deriving Repr, DecidableEq

/-- A sequence container holding cubes of some kind plus the `_common_axis`
attribute; the cube payload is abstract because the resolver only reads
shapes and `slice_sequence` only applies items. -/
structure SeqD (α : Type) where
  data : List α
  common_axis : Nat
deriving Repr, DecidableEq

/-! ## `cube_utils`: sequence-native slice resolution and application -/

/-- Default cube item `slice(None)` used by `convert_item_to_sequence_slices`. -/
def cube_slice_default : PyItem := .slice fullSlice

/-- `get_sequence_slices_from_int_item`: wraps the cube index and the slice to
apply to that cube into a single `SequenceSlice`. -/
def get_sequence_slices_from_int_item (int_item : Int) (cube_slice : PyItem) :
    List SequenceSlice :=
  [⟨int_item, cube_slice⟩]

/-- `get_sequence_slices_from_slice_item`: tries
`range(slice_item.start, slice_item.stop, slice_item.step)`, falling back to
`range(slice_item.start, slice_item.stop)` when the three-argument form raises
`TypeError` (i.e. when `step` is `None`); a `None` start or stop makes the
fallback raise `TypeError` as well, which propagates.  A zero step raises
`ValueError`, which the `except TypeError` clause does not catch. -/
def get_sequence_slices_from_slice_item (slice_item : PySlice) (cube_slice : PyItem) :
    Except PyError (List SequenceSlice) :=
  match slice_item.start, slice_item.stop, slice_item.step with
  | some a, some b, some st =>
      (pyRange a b st).map (fun r => r.map fun i => ⟨i, cube_slice⟩)
  | some a, some b, none =>
      (pyRange a b 1).map (fun r => r.map fun i => ⟨i, cube_slice⟩)
  | _, _, _ => .error .typeError

/-- `get_sequence_slices_from_tuple_item`: element 0 selects cubes, the
remainder is the inner cube item (a bare element when of length one, otherwise
a tuple); an empty tuple raises `IndexError` at `tuple_item[0]`. -/
def get_sequence_slices_from_tuple_item (tuple_item : List PyIndex) :
    Except PyError (List SequenceSlice) :=
  let cube_slice : PyItem :=
    match tuple_item.drop 1 with
    | [x] => x.toItem
    | rest => .tuple rest
  match tuple_item.head? with
  | none => .error .indexError
  | some (.int i) => .ok (get_sequence_slices_from_int_item i cube_slice)
  | some (.slice s) => get_sequence_slices_from_slice_item s cube_slice

/-- `convert_item_to_sequence_slices`: dispatch on the item kind (an item of
any other Python type raises `TypeError`, not representable in `PyItem`). -/
def convert_item_to_sequence_slices : PyItem → Except PyError (List SequenceSlice)
  | .int i => .ok (get_sequence_slices_from_int_item i cube_slice_default)
  | .slice s => get_sequence_slices_from_slice_item s cube_slice_default
  | .tuple t => get_sequence_slices_from_tuple_item t

/-- A cube treated opaquely by `slice_sequence`: a base cube, or the symbolic
result of applying an item to a cube (the data-cube abstraction applies items
externally; the embedding records the application). -/
inductive SCube where
  | base : Nat → SCube
  | getitem : SCube → PyItem → SCube
deriving Repr, DecidableEq

/-- The result of `slice_sequence`: either a bare cube-slice result or a
sequence of sliced cubes. -/
inductive SliceSequenceResult where
  | cube : SCube → SliceSequenceResult
  | sequence : SeqD SCube → SliceSequenceResult
deriving Repr, DecidableEq

/-- `slice_sequence`: applies resolved `SequenceSlice`s to the stored cubes.
In the single-element branch the source reads
`sequence_slices[0].cube_slice`, but the `SequenceSlice` named tuple declares
its fields as `"sequence_index cube_item"`, so that attribute access raises
`AttributeError` (after `result.data[...]` has been evaluated). -/
def slice_sequence (cubesequence : SeqD SCube) (sequence_slices : List SequenceSlice) :
    Except PyError SliceSequenceResult :=
  match sequence_slices with
  | [ss] => do
      let _cube ← pyListGet cubesequence.data ss.sequence_index
      .error .attributeError
  | sls => do
      let data ← sls.mapM fun ss => do
        let c ← pyListGet cubesequence.data ss.sequence_index
        pure (c.getitem ss.cube_item)
      .ok (.sequence ⟨data, cubesequence.common_axis⟩)

/-! ## `cube_utils`: cube-like (index-as-cube) resolution -/

/-- A cube as seen by the cube-like resolver: only its `data.shape` is read. -/
structure QCube where
  shape : List Nat
deriving Repr, DecidableEq

/-- `[c.data.shape[common_axis] for c in cubesequence.data]`: reading the
common-axis extent of every cube; a cube with too few axes raises
`IndexError`. -/
def cubeCommonLengths (cubesequence : SeqD QCube) : Except PyError (List Int) :=
  cubesequence.data.mapM fun c =>
    match c.shape.get? cubesequence.common_axis with
    | some n => .ok (n : Int)
    | none => .error .indexError

/-- `np.cumsum`: running totals. -/
def cumsum (l : List Int) : List Int := (l.scanl (· + ·) 0).drop 1

/-- `np.where(cumul_cube_lengths <= x)[0]`: the positions whose entry is at
most `x`, in increasing order. -/
def whereLE (cs : List Int) (x : Int) : List Nat :=
  (List.range cs.length).filter fun k => cs.getD k 0 ≤ x

/-- `_convert_cube_like_index_to_sequence_index`: maps a virtual (cube-like)
index to a `(sequence_index, common_axis_index)` pair against the cumulative
cube lengths, silently clamping out-of-range indices to the last cube's last
valid offset. -/
def _convert_cube_like_index_to_sequence_index (cube_like_index : Int)
    (cumul_cube_lengths : List Int) : Except PyError SequenceIndex :=
  match cumul_cube_lengths.head? with
  | none => .error .indexError
  | some c0 =>
    if cube_like_index < c0 then
      .ok ⟨0, cube_like_index⟩
    else
      match (whereLE cumul_cube_lengths cube_like_index).getLast? with
      | none => .error .indexError
      | some k =>
        let last := cumul_cube_lengths.getLastD 0
        let cube_index : Int :=
          if last - 1 < cube_like_index then
            if cumul_cube_lengths.length = 1 then last - 1
            else last - cumul_cube_lengths.getD (cumul_cube_lengths.length - 2) 0 - 1
          else cube_like_index - cumul_cube_lengths.getD k 0
        let sequence_index : Nat :=
          if k < cumul_cube_lengths.length - 1 then k + 1 else k
        .ok ⟨(sequence_index : Int), cube_index⟩

/-- `_convert_cube_like_slice_to_sequence_indices`:
`np.arange(cumul_cube_lengths[-1])[cube_like_slice]` materialises the virtual
indices selected by the slice (full Python slice semantics against the total
virtual length), each then resolved individually. -/
def _convert_cube_like_slice_to_sequence_indices (cube_like_slice : PySlice)
    (cumul_cube_lengths : List Int) : Except PyError (List SequenceIndex) :=
  match cumul_cube_lengths.getLast? with
  | none => .error .indexError
  | some last => do
    let (start, stop, step) ← sliceIndices cube_like_slice (max last 0)
    (pyRangeList start stop step).mapM
      (fun i => _convert_cube_like_index_to_sequence_index i cumul_cube_lengths)

/-- `_convert_sequence_index_to_sequence_slice`: `not cube_like_item` is the
Python falsiness test (true for `None` and for an empty tuple).  In the second
branch, `list(None)` raises `TypeError` and the handler then reads
`err.message`, an attribute Python-3 exceptions do not have, raising
`AttributeError`; with a real tuple the item list is padded with `slice(None)`
while shorter than `common_axis` and the common-axis entry is overwritten
(raising `IndexError` when position `common_axis` still does not exist). -/
def _convert_sequence_index_to_sequence_slice (sequence_index : SequenceIndex)
    (common_axis : Nat) (cube_like_item : Option (List PyIndex)) :
    Except PyError SequenceSlice :=
  if cube_like_item.getD [] = [] ∧ common_axis = 0 then
    .ok ⟨sequence_index.sequence_index, .int sequence_index.common_axis_index⟩
  else
    match cube_like_item with
    | none => .error .attributeError
    | some l =>
      let padded := l ++ List.replicate (common_axis - l.length) (.slice fullSlice)
      if common_axis < padded.length then
        .ok ⟨sequence_index.sequence_index,
             .tuple (padded.set common_axis (.int sequence_index.common_axis_index))⟩
      else .error .indexError

/-- `convert_cube_like_item_to_sequence_slices`: the cube-like resolver.  The
cumulative lengths are computed first; an `int` or `slice` item requires
`common_axis = 0`; a tuple item is length-checked against `common_axis` (not
`common_axis + 1`) and then indexed at position `common_axis`; both tuple
sub-branches then evaluate the undefined global name `item`
(`item[cubesequence._common_axis]` resp. `item`), raising `NameError`. -/
def convert_cube_like_item_to_sequence_slices (cubesequence : SeqD QCube)
    (cube_like_item : PyItem) : Except PyError (List SequenceSlice) := do
  let lens ← cubeCommonLengths cubesequence
  let cumul_cube_lengths := cumsum lens
  match cube_like_item with
  | .int i =>
      if cubesequence.common_axis ≠ 0 then .error .valueError
      else do
        let si ← _convert_cube_like_index_to_sequence_index i cumul_cube_lengths
        .ok (get_sequence_slices_from_int_item si.sequence_index (.int si.common_axis_index))
  | .slice s =>
      if cubesequence.common_axis ≠ 0 then .error .valueError
      else do
        let sis ← _convert_cube_like_slice_to_sequence_indices s cumul_cube_lengths
        sis.mapM fun si =>
          _convert_sequence_index_to_sequence_slice si cubesequence.common_axis none
  | .tuple t =>
      if t.length < cubesequence.common_axis then .error .valueError
      else
        match t.get? cubesequence.common_axis with
        | none => .error .indexError
        | some (.int _) => .error .nameError
        | some (.slice _) => .error .nameError

/-- Re-derivation of a virtual index from a resolved `SequenceIndex` pair:
the common-axis offset itself for the first cube, otherwise the previous
cube's cumulative extent plus the offset. -/
def rederive_virtual_index (extents : List Int) (si : SequenceIndex) : Int :=
  if si.sequence_index = 0 then si.common_axis_index
  else extents.getD (si.sequence_index - 1).toNat 0 + si.common_axis_index

/-! ## `lookup_table_coord`: units, arrays, models -/

/-- A physical unit, identified by its physical type (two units are
physically equivalent exactly when they share it). -/
structure UnitT where
  phys : Nat
deriving Repr, DecidableEq

/-- Physical-type tags for the reference units the code compares against. -/
def physLength : Nat := 0

def physTime : Nat := 1

def physPixel : Nat := 2

/-- `u.m`. -/
def u_m : UnitT := ⟨physLength⟩

/-- `u.s`. -/
def u_s : UnitT := ⟨physTime⟩

/-- `u.pix`. -/
def u_pix : UnitT := ⟨physPixel⟩

/-- `a.is_equivalent(b)` for units. -/
def unit_is_equivalent (a b : UnitT) : Bool := a.phys = b.phys

/-- Number of integer elements of an item (each integer index reduces one
array dimension). -/
def PyItem.intCount : PyItem → Nat
  | .int _ => 1
  | .slice _ => 0
  | .tuple l => (l.filter PyIndex.isInt).length

/-- A quantity lookup-table array, treated symbolically: a base array with an
identity, a dimensionality and a unit, or the result of indexing an array
with an item (the array slicing itself is performed by the external array
abstraction; the embedding records it). -/
inductive Arr where
  | base : Nat → Nat → UnitT → Arr
  | getitem : Arr → PyItem → Arr
deriving Repr, DecidableEq

/-- Dimensionality of an array: indexing with an integer drops an axis,
slicing keeps it. -/
def Arr.ndim : Arr → Nat
  | .base _ n _ => n
  | .getitem a it => a.ndim - it.intCount

/-- Unit of an array: indexing a quantity returns a quantity with the same
unit. -/
def Arr.unit : Arr → UnitT
  | .base _ _ u => u
  | .getitem a _ => a.unit

/-- A realized transform model; the embedding tracks the attribute the code
reads, the model's input arity. -/
structure TModel where
  n_inputs : Nat
deriving Repr, DecidableEq

/-- `LookupTableCoord.generate_tabular`: builds a `Tabular{ndim}D` model from
a quantity array; the resulting model's `n_inputs` equals the table's
dimensionality. -/
def generate_tabular (lookup_table : Arr) : TModel := ⟨lookup_table.ndim⟩

/-- `LookupTableCoord._generate_compound_model`: joins one tabular model per
table with the independent-axes operator `&` (input arities add); without
meshing, a `Mapping` duplicating the inputs is prepended, so the pipeline's
input arity is the first table's dimensionality.  (Called with at least one
table; the head default is never used by the callers embedded here.) -/
def _generate_compound_model (lookup_tables : List Arr) (mesh : Bool) : TModel :=
  if mesh then ⟨(lookup_tables.map Arr.ndim).sum⟩
  else ⟨(lookup_tables.headD (.base 0 0 u_pix)).ndim⟩

/-- `LookupTableCoord._model_from_quantity`: a compound model for more than
one table, a single tabular model otherwise. -/
def _model_from_quantity (lookup_tables : List Arr) (mesh : Bool) : TModel :=
  if 1 < lookup_tables.length then _generate_compound_model lookup_tables mesh
  else generate_tabular (lookup_tables.headD (.base 0 0 u_pix))

/-- The raw lookup table held by a `DelayedLookupTable`: a single array or a
tuple of arrays. -/
inductive LTable where
  | single : Arr → LTable
  | tup : List Arr → LTable
deriving Repr, DecidableEq

/-- The component arrays of a raw lookup table. -/
def LTable.components : LTable → List Arr
  | .single a => [a]
  | .tup l => l

/-- The construction function stored in a `DelayedLookupTable`:
`partial(self._model_from_quantity, mesh=mesh)` for the quantity kind,
`_generate_time_lookup` for the time kind (which calls `_model_from_quantity`
on a one-element tuple with the default `mesh=False`), and
`_generate_skycoord_lookup` for the sky kind (which calls
`_model_from_quantity` with the captured mesh flag). -/
inductive MFun where
  | mq : Bool → MFun
  | timeLookup : MFun
  | skyLookup : Bool → MFun
deriving Repr, DecidableEq

/-- Invoking a construction function on a raw lookup table. -/
def MFun.call : MFun → LTable → TModel
  | .mq mesh, lt => _model_from_quantity lt.components mesh
  | .timeLookup, lt => _model_from_quantity lt.components false
  | .skyLookup mesh, lt => _model_from_quantity lt.components mesh

/-- `DelayedLookupTable`: the raw table(s), the construction function, and
the mesh flag (constructor default `True`). -/
structure DelayedLookupTable where
  lookup_table : LTable
  model_function : MFun
  mesh : Bool
deriving Repr, DecidableEq

/-- `DelayedLookupTable.__call__`: invoke the construction function on the
held raw table. -/
def DelayedLookupTable.call (d : DelayedLookupTable) : TModel :=
  d.model_function.call d.lookup_table

/-- `DelayedLookupTable.__getitem__`: for a tuple table under mesh mode the
item must be a tuple of matching length (`assert len(item) == len(...)`,
raising `AssertionError` on mismatch and `TypeError` when `len(item)` is
applied to an `int` or `slice`) and each sub-item is applied to its
component; without mesh mode the same item is applied to every component; a
single table is indexed directly.  The result is built as
`type(self)(newlt, self.model_function)`, i.e. with the constructor's default
mesh flag `True`. -/
def dlt_getitem (d : DelayedLookupTable) (item : PyItem) :
    Except PyError DelayedLookupTable :=
  match d.lookup_table with
  | .tup lts =>
    if d.mesh then
      match item with
      | .tuple its =>
          if its.length = lts.length then
            .ok ⟨.tup ((lts.zip its).map fun p => p.1.getitem p.2.toItem),
                 d.model_function, true⟩
          else .error .assertionError
      | .int _ => .error .typeError
      | .slice _ => .error .typeError
    else
      .ok ⟨.tup (lts.map fun lt => lt.getitem item), d.model_function, true⟩
  | .single a => .ok ⟨.single (a.getitem item), d.model_function, true⟩

/-- A coordinate frame as read by the functional `LookupTableCoord`
operations: axis count, axis types, axis order, per-axis units. -/
structure CFrame where
  naxes : Nat
  axes_type : List String
  axes_order : List Nat
  unit : List UnitT
deriving Repr, DecidableEq

/-- `LookupTableCoord._generate_generic_frame` for a single shared unit:
replicates the unit across the axes and classifies the axis type by
equivalence against `u.m` and `u.pix`. -/
def _generate_generic_frame (naxes : Nat) (un : UnitT) : CFrame :=
  let units := List.replicate naxes un
  let spatial := if units.all fun x => unit_is_equivalent u_m x then "SPATIAL" else "CUSTOM"
  let kind := if units.all fun x => unit_is_equivalent u_pix x then "PIXEL" else spatial
  ⟨naxes, List.replicate naxes kind, List.range naxes, units⟩

/-- Modelled collaborator behavior (astropy units): `u.Quantity(tables)` on a
list of quantities converts every entry to the first entry's unit, raising a
units error when some entry's unit is not equivalent to the first's; the
resulting quantity's unit is the first entry's.  (An empty input is a value
error; never reached by the embedded callers.) -/
def u_Quantity_unit (lts : List Arr) : Except PyError UnitT :=
  match lts with
  | [] => .error .valueError
  | q :: rest =>
      if rest.all fun r => unit_is_equivalent r.unit q.unit then .ok q.unit
      else .error .unitsError

/-- `LookupTableCoord._from_quantity`: the unit check compares each table's
unit against the unit of that same table's first element
(`lt.unit.is_equivalent(lt[0].unit)`), then `u.Quantity(lookup_tables)`
coerces the tables to a single quantity to read its unit, and a generic frame
with one axis per table is built; the delayed table stores the tuple of
tables, `partial(_model_from_quantity, mesh=mesh)`, and the mesh flag. -/
def _from_quantity (lookup_tables : List Arr) (mesh : Bool) :
    Except PyError (DelayedLookupTable × CFrame) := do
  if ¬ lookup_tables.all (fun lt =>
      unit_is_equivalent lt.unit ((lt.getitem (.int 0)).unit)) then
    .error .unitsError
  else do
    let un ← u_Quantity_unit lookup_tables
    .ok (⟨.tup lookup_tables, .mq mesh, mesh⟩,
         _generate_generic_frame lookup_tables.length un)

/-! ## `LookupTableCoord`: sub-selection (functional view) -/

/-- The attribute content of a `LookupTableCoord`: the parallel lists of
delayed models and frames. -/
structure LookupTableCoordV where
  delayed_models : List DelayedLookupTable
  frames : List CFrame
deriving Repr, DecidableEq

/-- `LookupTableCoord.ndim`: total axis count over the held frames. -/
def LookupTableCoordV.ndim (c : LookupTableCoordV) : Nat :=
  (c.frames.map fun f => f.axes_order.length).sum

/-- Modelled collaborator behavior (astropy `sanitize_slices`): normalises an
item to a list of exactly `ndim` index elements, padding with full slices and
rejecting an item with more elements than `ndim`. -/
def sanitize_slices (item : List PyIndex) (ndim : Nat) :
    Except PyError (List PyIndex) :=
  if ndim < item.length then .error .valueError
  else .ok (item ++ List.replicate (ndim - item.length) (.slice fullSlice))

/-- `tuple(item[i] for i in range(ind, ind + n_axes))`: reading a contiguous
window of the sanitized item, `item[i]` raising `IndexError` when exhausted. -/
def take_sub_items (item : List PyIndex) (ind n_axes : Nat) :
    Except PyError (List PyIndex) :=
  (List.range n_axes).mapM fun j =>
    match item.get? (ind + j) with
    | some it => Except.ok it
    | none => Except.error PyError.indexError

/-- The loop body of `LookupTableCoord.__getitem__` over the zipped
`(delayed_model, frame)` pairs: each iteration realizes the delayed model
(`model = dmodel()`) to read its `n_inputs`, takes that many elements of the
sanitized item, and keeps the pair — with the delayed model sliced by the
sub-item tuple — unless every sub-item is an integer.  The returned counter
is the number of construction-function invocations performed. -/
def lutc_getitem_go (item : List PyIndex) :
    List (DelayedLookupTable × CFrame) → Nat →
    Except PyError (List DelayedLookupTable × List CFrame × Nat)
  | [], _ => .ok ([], [], 0)
  | (dmodel, frame) :: rest, ind => do
      let model := dmodel.call
      let n_axes := model.n_inputs
      let sub_items ← take_sub_items item ind n_axes
      if sub_items.all PyIndex.isInt then do
        let (ds, fs, cnt) ← lutc_getitem_go item rest (ind + n_axes)
        .ok (ds, fs, cnt + 1)
      else do
        let d ← dlt_getitem dmodel (.tuple sub_items)
        let (ds, fs, cnt) ← lutc_getitem_go item rest (ind + n_axes)
        .ok (d :: ds, frame :: fs, cnt + 1)

/-- `LookupTableCoord.__getitem__`: sanitize the item against `ndim`, run the
partition loop, and return `None` when every pair was dropped, otherwise a
new instance holding the kept pairs.  The second component counts the
construction-function invocations the call performed. -/
def lutc_getitem (c : LookupTableCoordV) (item : List PyIndex) :
    Except PyError (Option LookupTableCoordV × Nat) := do
  let sane ← sanitize_slices item c.ndim
  let (ds, fs, cnt) ← lutc_getitem_go sane (c.delayed_models.zip c.frames) 0
  if ds = [] then .ok (none, cnt)
  else .ok (some ⟨ds, fs⟩, cnt)

/-! ## `LookupTableCoord.__and__` (stateful view)

Composition works on Python objects with shared, mutable backing storage:
`copy.copy` copies only the attribute references and `+=` extends a list in
place.  The embedding makes the object graph explicit: a heap of list
objects, frame objects and `LookupTableCoord` objects, addressed by
references. -/

/-- A mutable frame object: axis count and the reassignable `_axes_order`. -/
structure HFrame where
  naxes : Nat
  axes_order : List Int
deriving Repr, DecidableEq

/-- The object heap: delayed-model list objects (holding model identities),
frame list objects (holding frame references), frame objects, and
`LookupTableCoord` objects (pairs of a delayed-model-list reference and a
frame-list reference). -/
structure HState where
  dlists : List (List Nat)
  flists : List (List Nat)
  frames : List HFrame
  lutcs : List (Nat × Nat)
deriving Repr, DecidableEq

/-- Dereference a heap cell (a dangling reference cannot occur for states
built by the embedded operations). -/
def heapGet {α : Type} (l : List α) (r : Nat) : Except PyError α :=
  match l.get? r with
  | some x => .ok x
  | none => .error .indexError

/-- The frame re-indexing loop of `__and__`: walks the composite frame list
assigning `f._axes_order = tuple(range(ind, ind + f.naxes))` in place,
threading the running axis offset. -/
def reindex_frames : HState → List Nat → Int → Except PyError HState
  | st, [], _ => .ok st
  | st, fr :: rest, ind => do
      let f ← heapGet st.frames fr
      let new_ind := ind + f.naxes
      let st' := { st with frames := st.frames.set fr ⟨f.naxes, pyRangeList ind new_ind 1⟩ }
      reindex_frames st' rest new_ind

/-- `LookupTableCoord.__and__` (the operand type check is enforced by the
embedding's types): `copy.copy(self)` allocates a new object sharing `self`'s
attribute references; `new.delayed_models += other.delayed_models` and
`new.frames += other.frames` extend those shared list objects in place; the
frames reachable from the composite frame list are then re-indexed in place.
The result is the new state, the new object's reference, and the number of
construction-function invocations performed (the body contains none). -/
def lutc_and (st : HState) (selfR otherR : Nat) :
    Except PyError (HState × Nat × Nat) := do
  let selfA ← heapGet st.lutcs selfR
  let otherA ← heapGet st.lutcs otherR
  let newR := st.lutcs.length
  let st1 := { st with lutcs := st.lutcs ++ [selfA] }
  let sdl ← heapGet st1.dlists selfA.1
  let odl ← heapGet st1.dlists otherA.1
  let st2 := { st1 with dlists := st1.dlists.set selfA.1 (sdl ++ odl) }
  let sfl ← heapGet st2.flists selfA.2
  let ofl ← heapGet st2.flists otherA.2
  let st3 := { st2 with flists := st2.flists.set selfA.2 (sfl ++ ofl) }
  let frameRefs ← heapGet st3.flists selfA.2
  let st4 ← reindex_frames st3 frameRefs 0
  .ok (st4, newR, 0)

/-- The axis count of the frame object at reference `r` (0 for a dangling
reference, which the embedded operations never produce). -/
def frame_naxes_at (frames : List HFrame) (r : Nat) : Nat :=
  ((frames.get? r).getD ⟨0, []⟩).naxes

/-- The composite axis offset of position `i` in a frame-reference list: the
total axis count of the frames referenced before position `i`.  This is the
running `ind` of the `__and__` re-indexing loop. -/
def axes_offset (frames : List HFrame) (refs : List Nat) (i : Nat) : Int :=
  (((refs.take i).map (frame_naxes_at frames)).sum : Nat)

/-! ## Helper lemmas -/

theorem getLastD_eq_getD_length_sub_one (cs : List Int) :
    cs.getLastD 0 = cs.getD (cs.length - 1) 0 := by
  rw [List.getLastD_eq_getLast?, List.getLast?_eq_getElem?, List.getD_eq_getElem?_getD]

theorem mem_of_getLast?_eq_some {α : Type} {l : List α} {a : α}
    (h : l.getLast? = some a) : a ∈ l := by
  have hne : l ≠ [] := by
    intro h0
    rw [h0] at h
    exact Option.noConfusion h
  have hmem := List.getLast_mem hne
  rw [List.getLast?_eq_getLast_of_ne_nil hne, Option.some.injEq] at h
  exact h ▸ hmem

theorem whereLE_getLast_full (cs : List Int) (x : Int) (hne : cs ≠ [])
    (h : cs.getD (cs.length - 1) 0 ≤ x) :
    (whereLE cs x).getLast? = some (cs.length - 1) := by
  obtain ⟨n, hn⟩ : ∃ n, cs.length = n + 1 := by
    cases cs with
    | nil => exact absurd rfl hne
    | cons a t => exact ⟨t.length, rfl⟩
  have hpn : decide (cs.getD n 0 ≤ x) = true := by
    rw [hn] at h
    simpa using h
  have hpn' : cs[n]?.getD 0 ≤ x := by
    rw [← List.getD_eq_getElem?_getD]
    simpa using hpn
  have hsing : List.filter (fun k => decide (cs.getD k 0 ≤ x)) [n] = [n] := by
    simp [hpn, hpn']
  unfold whereLE
  rw [hn, List.range_succ, List.filter_append, hsing, List.getLast?_concat]
  simp

theorem sorted_head_le_getLastD (c0 : Int) (t : List Int)
    (hs : List.Sorted (· ≤ ·) (c0 :: t)) : c0 ≤ (c0 :: t).getLastD 0 := by
  have hne : (c0 :: t) ≠ [] := by simp
  have hmem := List.getLast_mem hne
  have hl : (c0 :: t).getLastD 0 = (c0 :: t).getLast hne := by
    rw [List.getLastD_eq_getLast?, List.getLast?_eq_getLast_of_ne_nil hne]
    rfl
  rw [hl]
  rcases List.mem_cons.mp hmem with h | h
  · exact le_of_eq h.symm
  · exact (List.pairwise_cons.mp hs).1 _ h

/-! ## Claim theorems -/

/-- C6: for a nonempty, non-decreasing cumulative-extents sequence and any
virtual index beyond `extents[last] - 1`, cube-like index resolution does not
fail but clamps: it addresses the last cube, with common-axis offset
`extents[last] - 1` for a single cube and
`extents[last] - extents[last-1] - 1` otherwise. -/
theorem cube_like_index_clamps_on_overflow (cs : List Int) (idx : Int)
    (hne : cs ≠ []) (hsorted : List.Sorted (· ≤ ·) cs)
    (hover : cs.getLastD 0 - 1 < idx) :
    _convert_cube_like_index_to_sequence_index idx cs =
      .ok ⟨((cs.length - 1 : Nat) : Int),
           if cs.length = 1 then cs.getLastD 0 - 1
           else cs.getLastD 0 - cs.getD (cs.length - 2) 0 - 1⟩ := by
  obtain ⟨c0, t, rfl⟩ : ∃ a l, cs = a :: l := by
    cases cs with
    | nil => exact absurd rfl hne
    | cons a l => exact ⟨a, l, rfl⟩
  have hhead : c0 ≤ (c0 :: t).getLastD 0 := sorted_head_le_getLastD c0 t hsorted
  have hnlt : ¬ idx < c0 := by omega
  have hfull := whereLE_getLast_full (c0 :: t) idx hne
    (by rw [← getLastD_eq_getD_length_sub_one]; omega)
  have hk : ¬ ((c0 :: t).length - 1 < (c0 :: t).length - 1) := lt_irrefl _
  rw [List.getLastD_eq_getLast?] at hover
  unfold _convert_cube_like_index_to_sequence_index
  simp only [List.getLastD_eq_getLast?]
  simp [hnlt, hfull, hover, hk]

/-- Witness for C6 at the spec's extents `[3, 7, 10]` with virtual index 15:
clamped to the last cube's last offset `10 - 7 - 1 = 2`. -/
theorem cube_like_index_clamps_on_overflow_witness :
    _convert_cube_like_index_to_sequence_index 15 [3, 7, 10] = .ok ⟨2, 2⟩ := by
  have h := cube_like_index_clamps_on_overflow [3, 7, 10] 15 (by decide)
    (by decide) (by decide)
  simpa using h

/-- C7: for a virtual index within `[0, extents[last])`, resolving and then
re-deriving the virtual index from the returned pair reproduces the original
value. -/
theorem cube_like_index_roundtrip (cs : List Int) (idx : Int) (hne : cs ≠ [])
    (h0 : 0 ≤ idx) (hlt : idx < cs.getLastD 0) :
    ∃ si, _convert_cube_like_index_to_sequence_index idx cs = .ok si ∧
      rederive_virtual_index cs si = idx := by
  obtain ⟨c0, t, rfl⟩ : ∃ a l, cs = a :: l := by
    cases cs with
    | nil => exact absurd rfl hne
    | cons a l => exact ⟨a, l, rfl⟩
  by_cases hc : idx < c0
  · refine ⟨⟨0, idx⟩, ?_, ?_⟩
    · unfold _convert_cube_like_index_to_sequence_index
      simp [hc]
    · simp [rederive_virtual_index]
  · have h0mem : 0 ∈ whereLE (c0 :: t) idx := by
      simp only [whereLE, List.mem_filter, List.mem_range]
      refine ⟨by simp, ?_⟩
      simpa using not_lt.mp hc
    have hlne : whereLE (c0 :: t) idx ≠ [] := by
      intro hnil
      rw [hnil] at h0mem
      exact absurd h0mem (List.not_mem_nil 0)
    obtain ⟨k, hk⟩ : ∃ k, (whereLE (c0 :: t) idx).getLast? = some k := by
      cases hw : (whereLE (c0 :: t) idx).getLast? with
      | none => exact absurd (List.getLast?_eq_none_iff.mp hw) hlne
      | some k => exact ⟨k, rfl⟩
    have hkmem := mem_of_getLast?_eq_some hk
    have hkprop : k < (c0 :: t).length ∧ (c0 :: t).getD k 0 ≤ idx := by
      have hm := List.mem_filter.mp hkmem
      exact ⟨List.mem_range.mp hm.1, by simpa using hm.2⟩
    have hkne : k ≠ (c0 :: t).length - 1 := by
      intro heq
      have h2 := hkprop.2
      rw [heq, ← getLastD_eq_getD_length_sub_one] at h2
      omega
    have hklt : k < (c0 :: t).length - 1 := by
      have := hkprop.1
      omega
    have hklt' : k < t.length := by
      simp only [List.length_cons] at hklt
      omega
    have hnc : ¬ ((c0 :: t).getLastD 0 - 1 < idx) := by omega
    rw [List.getLastD_eq_getLast?] at hnc
    refine ⟨⟨((k + 1 : Nat) : Int), idx - (c0 :: t).getD k 0⟩, ?_, ?_⟩
    · unfold _convert_cube_like_index_to_sequence_index
      simp only [List.getLastD_eq_getLast?]
      simp [hc, hk, hnc, hklt']
    · unfold rederive_virtual_index
      have hz : ¬ (((k + 1 : Nat) : Int) = 0) := by omega
      have ht : (((k + 1 : Nat) : Int) - 1).toNat = k := by omega
      simp only [hz, if_false, ht]
      omega

/-- Witness for C7 at the spec's extents `[3, 7, 10]` with virtual index 5. -/
theorem cube_like_index_roundtrip_witness :
    ∃ si, _convert_cube_like_index_to_sequence_index 5 [3, 7, 10] = .ok si ∧
      rederive_virtual_index [3, 7, 10] si = 5 :=
  cube_like_index_roundtrip [3, 7, 10] 5 (by decide) (by decide) (by decide)

theorem except_bind_ok {ε α β : Type} (a : α) (f : α → Except ε β) :
    (Except.ok a >>= f : Except ε β) = f a := rfl

theorem except_bind_error {ε α β : Type} (e : ε) (f : α → Except ε β) :
    (Except.error e >>= f : Except ε β) = .error e := rfl

/-- C10: sequence-native slice resolution applies `range` directly to the
slice's fields, so a slice whose start or stop is omitted (`None`) raises
`TypeError` instead of being resolved against the number of cubes. -/
theorem slice_item_requires_explicit_bounds (s : PySlice)
    (h : s.start = none ∨ s.stop = none) :
    convert_item_to_sequence_slices (.slice s) = .error .typeError := by
  obtain ⟨st, sp, se⟩ := s
  cases st <;> cases sp <;> cases se <;>
    first
      | rfl
      | (exfalso
         rcases h with h | h <;> exact Option.noConfusion h)

/-- Witness for C10 at `slice(None, 3)`. -/
theorem slice_item_requires_explicit_bounds_witness :
    convert_item_to_sequence_slices (.slice ⟨none, some 3, none⟩) =
      .error .typeError :=
  slice_item_requires_explicit_bounds ⟨none, some 3, none⟩ (Or.inl rfl)

/-- C9: constructing from quantity lookup tables among which some pair has
non-equivalent units fails with a units error at construction time (the error
is raised by the quantity coercion `u.Quantity(lookup_tables)`; the
function's own per-table check compares each table with its own first element
and is vacuously true). -/
theorem quantity_tables_inequivalent_units_error (lts : List Arr) (mesh : Bool)
    (a b : Arr) (ha : a ∈ lts) (hb : b ∈ lts)
    (hne : unit_is_equivalent a.unit b.unit = false) :
    _from_quantity lts mesh = .error .unitsError := by
  have hdead : lts.all (fun lt =>
      unit_is_equivalent lt.unit ((lt.getitem (.int 0)).unit)) = true := by
    simp [List.all_eq_true, unit_is_equivalent, Arr.unit]
  have hq : u_Quantity_unit lts = .error .unitsError := by
    cases lts with
    | nil => exact absurd ha (List.not_mem_nil a)
    | cons q rest =>
      have hcond : ¬ (rest.all (fun r => unit_is_equivalent r.unit q.unit) = true) := by
        intro hall
        have key : ∀ x ∈ q :: rest, x.unit.phys = q.unit.phys := by
          intro x hx
          rcases List.mem_cons.mp hx with rfl | hx
          · rfl
          · simpa [unit_is_equivalent] using List.all_eq_true.mp hall x hx
        have h1 := key a ha
        have h2 := key b hb
        simp [unit_is_equivalent, h1, h2] at hne
      simp only [u_Quantity_unit]
      rw [if_neg hcond]
  unfold _from_quantity
  rw [if_neg (by simp [hdead]), hq]
  rfl

/-- Witness for C9: a metre-valued and a second-valued lookup table. -/
theorem quantity_tables_inequivalent_units_error_witness :
    _from_quantity [.base 0 1 u_m, .base 1 1 u_s] true = .error .unitsError :=
  quantity_tables_inequivalent_units_error [.base 0 1 u_m, .base 1 1 u_s] true
    (.base 0 1 u_m) (.base 1 1 u_s) (by decide) (by decide) (by decide)

/-- C8 (amended): a cube-like tuple item strictly shorter than `common_axis`
is rejected with the length/shape `ValueError` before the tuple is indexed,
while a tuple of length exactly `common_axis` passes the length check and
fails with `IndexError` when the tuple is indexed at the common-axis
position. -/
theorem cube_like_tuple_length_check (cubesequence : SeqD QCube)
    (t : List PyIndex) (ls : List Int)
    (hcum : cubeCommonLengths cubesequence = .ok ls) :
    (t.length < cubesequence.common_axis →
      convert_cube_like_item_to_sequence_slices cubesequence (.tuple t) =
        .error .valueError) ∧
    (t.length = cubesequence.common_axis →
      convert_cube_like_item_to_sequence_slices cubesequence (.tuple t) =
        .error .indexError) := by
  unfold convert_cube_like_item_to_sequence_slices
  rw [hcum, except_bind_ok]
  constructor
  · intro h
    simp [h]
  · intro h
    have hget : t[cubesequence.common_axis]? = none := by
      rw [List.getElem?_eq_none_iff]
      omega
    simp [h, hget]

/-- Witness for C8 on a one-cube sequence with `common_axis = 2` and the
too-short tuple item `(0,)`. -/
theorem cube_like_tuple_length_check_witness :
    convert_cube_like_item_to_sequence_slices ⟨[⟨[2, 3, 4]⟩], 2⟩
      (.tuple [.int 0]) = .error .valueError :=
  (cube_like_tuple_length_check ⟨[⟨[2, 3, 4]⟩], 2⟩ [.int 0] [4] (by decide)).1
    (by decide)

/-- C8 counterexample: with `common_axis = 1`, the tuple item `(0,)` of
length exactly `common_axis` is not rejected with the length/shape
`ValueError`; the length check passes and indexing the tuple at the
common-axis position raises `IndexError`. -/
theorem cube_like_tuple_exact_length_cex :
    convert_cube_like_item_to_sequence_slices ⟨[⟨[2, 3]⟩], 1⟩
        (.tuple [.int 0]) = .error .indexError ∧
    convert_cube_like_item_to_sequence_slices ⟨[⟨[2, 3]⟩], 1⟩
        (.tuple [.int 0]) ≠ .error .valueError := by
  decide

/-- C2: the spec's concrete scenario 3 — tuple item
`(slice(1,3), 0, slice(None))` with `common_axis = 0` on a two-cube sequence
of lengths `[2, 5]` — does not produce the two expected `SequenceSlice`
values: the tuple branch evaluates the undefined global name `item` and
raises `NameError`. -/
theorem cube_like_tuple_item_raises_name_error :
    convert_cube_like_item_to_sequence_slices ⟨[⟨[2, 3, 4]⟩, ⟨[5, 3, 4]⟩], 0⟩
      (.tuple [.slice ⟨some 1, some 3, none⟩, .int 0, .slice fullSlice]) =
      .error .nameError := by
  decide

/-- C5: applying a single-element resolved slice list raises
`AttributeError` (the code reads the nonexistent field `cube_slice` of
`SequenceSlice`), while a multi-element list returns a sequence of the
sliced cubes in list order. -/
theorem slice_sequence_single_element_attribute_error :
    slice_sequence ⟨[.base 0], 0⟩ [⟨0, .slice fullSlice⟩] =
        .error .attributeError ∧
    slice_sequence ⟨[.base 0, .base 1], 0⟩ [⟨0, .int 1⟩, ⟨1, .int 0⟩] =
      .ok (.sequence ⟨[(SCube.base 0).getitem (.int 1),
                       (SCube.base 1).getitem (.int 0)], 0⟩) := by
  decide

/-- C4: slicing a `DelayedLookupTable` with `mesh=False` returns an instance
holding the sliced tables and the same construction function, but with mesh
flag `True` (the constructor default), not the original `False`. -/
theorem dlt_getitem_drops_mesh_flag :
    dlt_getitem ⟨.tup [.base 0 1 u_m, .base 1 1 u_m], .mq false, false⟩
        (.slice ⟨some 0, some 1, none⟩) =
      .ok ⟨.tup [(Arr.base 0 1 u_m).getitem (.slice ⟨some 0, some 1, none⟩),
                 (Arr.base 1 1 u_m).getitem (.slice ⟨some 0, some 1, none⟩)],
           .mq false, true⟩ ∧
    (⟨.tup [.base 0 1 u_m, .base 1 1 u_m], .mq false, false⟩ :
        DelayedLookupTable).mesh = false := by
  decide

theorem lutc_getitem_go_invocation_count (item : List PyIndex)
    (l : List (DelayedLookupTable × CFrame)) :
    ∀ (ind : Nat) (ds : List DelayedLookupTable) (fs : List CFrame) (n : Nat),
      lutc_getitem_go item l ind = .ok (ds, fs, n) → n = l.length := by
  induction l with
  | nil =>
    intro ind ds fs n h
    simp only [lutc_getitem_go] at h
    cases h
    rfl
  | cons p rest ih =>
    obtain ⟨dmodel, frame⟩ := p
    intro ind ds fs n h
    simp only [lutc_getitem_go] at h
    cases hm : take_sub_items item ind dmodel.call.n_inputs with
    | error e =>
        rw [hm, except_bind_error] at h
        exact Except.noConfusion h
    | ok subs =>
        rw [hm, except_bind_ok] at h
        by_cases hall : subs.all PyIndex.isInt
        · rw [if_pos hall] at h
          cases hr : lutc_getitem_go item rest (ind + dmodel.call.n_inputs) with
          | error e => rw [hr, except_bind_error] at h; exact Except.noConfusion h
          | ok trip =>
              obtain ⟨ds', fs', cnt⟩ := trip
              rw [hr, except_bind_ok] at h
              cases h
              simp [ih _ _ _ _ hr]
        · rw [if_neg hall] at h
          cases hd : dlt_getitem dmodel (.tuple subs) with
          | error e => rw [hd, except_bind_error] at h; exact Except.noConfusion h
          | ok d =>
              rw [hd, except_bind_ok] at h
              cases hr : lutc_getitem_go item rest (ind + dmodel.call.n_inputs) with
              | error e => rw [hr, except_bind_error] at h; exact Except.noConfusion h
              | ok trip =>
                  obtain ⟨ds', fs', cnt⟩ := trip
                  rw [hr, except_bind_ok] at h
                  cases h
                  simp [ih _ _ _ _ hr]

/-- C1 (amended): sub-selection (`__getitem__`) invokes the construction
function of every held delayed table exactly once — it realizes each delayed
model to read its input arity — so a successful call performs one invocation
per held `(delayed model, frame)` pair; composition (`&`) performs no
construction-function invocation. -/
theorem getitem_realizes_each_model_composition_realizes_none :
    (∀ (c : LookupTableCoordV) (item : List PyIndex)
        (res : Option LookupTableCoordV) (n : Nat),
        lutc_getitem c item = .ok (res, n) →
        n = min c.delayed_models.length c.frames.length) ∧
    (∀ (st : HState) (a b : Nat) (out : HState × Nat × Nat),
        lutc_and st a b = .ok out → out.2.2 = 0) := by
  constructor
  · intro c item res n h
    simp only [lutc_getitem] at h
    cases hs : sanitize_slices item c.ndim with
    | error e => rw [hs, except_bind_error] at h; exact Except.noConfusion h
    | ok sane =>
        rw [hs, except_bind_ok] at h
        cases hg : lutc_getitem_go sane (c.delayed_models.zip c.frames) 0 with
        | error e => rw [hg, except_bind_error] at h; exact Except.noConfusion h
        | ok trip =>
            obtain ⟨ds, fs, cnt⟩ := trip
            rw [hg, except_bind_ok] at h
            have hcnt := lutc_getitem_go_invocation_count sane _ 0 ds fs cnt hg
            rw [List.length_zip] at hcnt
            by_cases hds : ds = []
            · rw [if_pos hds] at h
              cases h
              exact hcnt
            · rw [if_neg hds] at h
              cases h
              exact hcnt
  · intro st a b out h
    simp only [lutc_and, bind, Except.bind] at h
    repeat' split at h
    all_goals first
      | exact Except.noConfusion h
      | (cases h; rfl)

/-- C1 counterexample: sub-selecting a one-model `LookupTableCoord` with a
slice invokes the held delayed table's construction function — the
invocation count of the call is 1, not 0. -/
theorem getitem_performs_realization_cex :
    lutc_getitem ⟨[⟨.tup [.base 0 1 u_pix], .mq true, true⟩],
                  [⟨1, ["PIXEL"], [0], [u_pix]⟩]⟩
        [.slice ⟨some 1, some 4, none⟩] =
      .ok (some ⟨[⟨.tup [(Arr.base 0 1 u_pix).getitem
                           (.slice ⟨some 1, some 4, none⟩)], .mq true, true⟩],
                 [⟨1, ["PIXEL"], [0], [u_pix]⟩]⟩, 1) ∧
    (1 : Nat) ≠ 0 := by
  decide

/-- Witness for C1 (amended): one realization when sub-selecting a one-model
instance; zero realizations for a concrete composition. -/
theorem getitem_realizes_each_model_composition_realizes_none_witness :
    (1 : Nat) = min 1 1 ∧
    ((⟨[[0, 1], [1]], [[0, 1], [1]], [⟨1, [0]⟩, ⟨1, [1]⟩],
       [(0, 0), (1, 1), (0, 0)]⟩, 2, 0) : HState × Nat × Nat).2.2 = 0 :=
  ⟨getitem_realizes_each_model_composition_realizes_none.1
      ⟨[⟨.tup [.base 0 1 u_pix], .mq true, true⟩],
       [⟨1, ["PIXEL"], [0], [u_pix]⟩]⟩
      [.slice ⟨some 1, some 4, none⟩]
      (some ⟨[⟨.tup [(Arr.base 0 1 u_pix).getitem
                       (.slice ⟨some 1, some 4, none⟩)], .mq true, true⟩],
             [⟨1, ["PIXEL"], [0], [u_pix]⟩]⟩) 1 (by decide),
   getitem_realizes_each_model_composition_realizes_none.2
      ⟨[[0], [1]], [[0], [1]], [⟨1, [0]⟩, ⟨1, [0]⟩], [(0, 0), (1, 1)]⟩ 0 1
      (⟨[[0, 1], [1]], [[0, 1], [1]], [⟨1, [0]⟩, ⟨1, [1]⟩],
        [(0, 0), (1, 1), (0, 0)]⟩, 2, 0) (by decide)⟩

theorem get?_set_self {α : Type} (l : List α) (n : Nat) (a : α)
    (h : n < l.length) : (l.set n a).get? n = some a := by
  rw [List.get?_eq_getElem?]
  exact List.getElem?_set_self h

theorem frame_naxes_at_set (frames : List HFrame) (r : Nat) (f f' : HFrame)
    (hr : frames.get? r = some f) (hn : f'.naxes = f.naxes) (x : Nat) :
    frame_naxes_at (frames.set r f') x = frame_naxes_at frames x := by
  unfold frame_naxes_at
  by_cases hx : r = x
  · subst hx
    have hlt : r < frames.length := (List.get?_eq_some.mp hr).1
    rw [get?_set_self frames r f' hlt, hr]
    simpa using hn
  · rw [List.get?_set_ne _ frames hx]

theorem axes_offset_set (frames : List HFrame) (r : Nat) (f f' : HFrame)
    (hr : frames.get? r = some f) (hn : f'.naxes = f.naxes)
    (refs : List Nat) (i : Nat) :
    axes_offset (frames.set r f') refs i = axes_offset frames refs i := by
  unfold axes_offset
  rw [funext (frame_naxes_at_set frames r f f' hr hn)]

/-- Full specification of the `__and__` re-indexing loop: on a duplicate-free
list of valid frame references it succeeds, touches only the frame heap, and
assigns every referenced frame the contiguous axes-order range starting at
the total axis count of the frames listed before it; unreferenced frames are
untouched. -/
theorem reindex_frames_spec (refs : List Nat) :
    ∀ (st : HState) (ind : Int),
      (∀ r ∈ refs, r < st.frames.length) → refs.Nodup →
      ∃ st', reindex_frames st refs ind = .ok st' ∧
        st'.dlists = st.dlists ∧ st'.flists = st.flists ∧
        st'.lutcs = st.lutcs ∧ st'.frames.length = st.frames.length ∧
        (∀ x, x ∉ refs → st'.frames.get? x = st.frames.get? x) ∧
        (∀ (i : Nat) (x : Nat), refs.get? i = some x →
          st'.frames.get? x =
            some ⟨frame_naxes_at st.frames x,
                  pyRangeList (ind + axes_offset st.frames refs i)
                    (ind + axes_offset st.frames refs i +
                      frame_naxes_at st.frames x) 1⟩) := by
  induction refs with
  | nil =>
    intro st ind hval hnd
    refine ⟨st, rfl, rfl, rfl, rfl, rfl, fun x _ => rfl, fun i x hix => ?_⟩
    simp at hix
  | cons r rest ih =>
    intro st ind hval hnd
    have hrlt : r < st.frames.length := hval r (List.mem_cons_self r rest)
    obtain ⟨f, hf⟩ : ∃ f, st.frames.get? r = some f := by
      cases hsome : st.frames.get? r with
      | none =>
          rw [List.get?_eq_none] at hsome
          omega
      | some f => exact ⟨f, rfl⟩
    have hrnotin : r ∉ rest := (List.nodup_cons.mp hnd).1
    have hndrest : rest.Nodup := (List.nodup_cons.mp hnd).2
    have hnxr : frame_naxes_at st.frames r = f.naxes := by
      unfold frame_naxes_at
      rw [hf]
      rfl
    obtain ⟨st', hrun, hdl, hfl, hlu, hlen, hout, hpos⟩ :=
      ih { st with frames :=
            st.frames.set r ⟨f.naxes, pyRangeList ind (ind + (f.naxes : Int)) 1⟩ }
        (ind + (f.naxes : Int))
        (fun x hx => by simpa [List.length_set] using hval x (List.mem_cons_of_mem r hx))
        hndrest
    have hnaxes : ∀ x,
        frame_naxes_at (st.frames.set r
          ⟨f.naxes, pyRangeList ind (ind + (f.naxes : Int)) 1⟩) x =
        frame_naxes_at st.frames x :=
      frame_naxes_at_set st.frames r f _ hf rfl
    refine ⟨st', ?_, ?_, ?_, ?_, ?_, ?_, ?_⟩
    · simp only [reindex_frames, heapGet, hf, except_bind_ok]
      exact hrun
    · rw [hdl]
    · rw [hfl]
    · rw [hlu]
    · rw [hlen, List.length_set]
    · intro x hx
      have hxr : x ≠ r := fun h => hx (h ▸ List.mem_cons_self r rest)
      have hxrest : x ∉ rest := fun h => hx (List.mem_cons_of_mem r h)
      rw [hout x hxrest]
      exact List.get?_set_ne _ st.frames (fun h => hxr h.symm)
    · intro i x hix
      cases i with
      | zero =>
          have hx : x = r := by
            simp only [List.get?_cons_zero, Option.some.injEq] at hix
            exact hix.symm
          subst hx
          rw [hout x hrnotin, get?_set_self st.frames x _ hrlt, hnxr]
          have hoff0 : axes_offset st.frames (x :: rest) 0 = 0 := by
            simp [axes_offset]
          rw [hoff0, add_zero]
      | succ i =>
          have hix' : rest.get? i = some x := by simpa using hix
          rw [hpos i x hix', hnaxes x]
          have hoffS : ind + axes_offset st.frames (r :: rest) (i + 1) =
              ind + (f.naxes : Int) +
                axes_offset (st.frames.set r
                  ⟨f.naxes, pyRangeList ind (ind + (f.naxes : Int)) 1⟩) rest i := by
            rw [axes_offset_set st.frames r f
              ⟨f.naxes, pyRangeList ind (ind + (f.naxes : Int)) 1⟩ hf rfl]
            unfold axes_offset
            rw [List.take_succ_cons, List.map_cons, List.sum_cons, hnxr]
            push_cast
            ring
          rw [hoffS]

/-- C3 (amended): for any heap state and any pair of `LookupTableCoord`
objects with distinct backing list objects and a duplicate-free composite
frame list of valid references, `A & B` allocates a fresh object whose
attribute references are `A`'s; `A`'s delayed-model and frame list objects
are extended in place with `B`'s entries (the fresh object shares them);
`B`'s own list objects are unchanged; and every frame reachable from the
composite frame list — `A`'s and `B`'s alike — has its axes-order tuple
reassigned to the contiguous range starting at the total axis count of the
frames before it, while unreferenced frames are untouched. -/
theorem and_shares_self_storage_and_reindexes_frames
    (st : HState) (aR bR ad af bd bf : Nat)
    (adl bdl afl bfl : List Nat)
    (haR : st.lutcs.get? aR = some (ad, af))
    (hbR : st.lutcs.get? bR = some (bd, bf))
    (hadl : st.dlists.get? ad = some adl)
    (hbdl : st.dlists.get? bd = some bdl)
    (hafl : st.flists.get? af = some afl)
    (hbfl : st.flists.get? bf = some bfl)
    (hdne : ad ≠ bd) (hfne : af ≠ bf)
    (hval : ∀ r ∈ afl ++ bfl, r < st.frames.length)
    (hnd : (afl ++ bfl).Nodup) :
    ∃ st', lutc_and st aR bR = .ok (st', st.lutcs.length, 0) ∧
      st'.lutcs = st.lutcs ++ [(ad, af)] ∧
      st'.dlists = st.dlists.set ad (adl ++ bdl) ∧
      st'.flists = st.flists.set af (afl ++ bfl) ∧
      st'.dlists.get? bd = some bdl ∧
      st'.flists.get? bf = some bfl ∧
      (∀ x, x ∉ afl ++ bfl → st'.frames.get? x = st.frames.get? x) ∧
      (∀ (i : Nat) (x : Nat), (afl ++ bfl).get? i = some x →
        st'.frames.get? x =
          some ⟨frame_naxes_at st.frames x,
                pyRangeList (axes_offset st.frames (afl ++ bfl) i)
                  (axes_offset st.frames (afl ++ bfl) i +
                    frame_naxes_at st.frames x) 1⟩) := by
  have haflt : af < st.flists.length := (List.get?_eq_some.mp hafl).1
  have hread : (st.flists.set af (afl ++ bfl)).get? af = some (afl ++ bfl) :=
    get?_set_self st.flists af (afl ++ bfl) haflt
  obtain ⟨st', hrun, hdl, hfl, hlu, hlen, hout, hpos⟩ :=
    reindex_frames_spec (afl ++ bfl)
      ⟨st.dlists.set ad (adl ++ bdl), st.flists.set af (afl ++ bfl),
       st.frames, st.lutcs ++ [(ad, af)]⟩ 0 hval hnd
  refine ⟨st', ?_, ?_, ?_, ?_, ?_, ?_, ?_, ?_⟩
  · simp only [lutc_and, heapGet, haR, hbR, hadl, hbdl, hafl, hbfl, hread,
      except_bind_ok, hrun]
  · rw [hlu]
  · rw [hdl]
  · rw [hfl]
  · rw [hdl]
    rw [List.get?_set_ne _ st.dlists hdne]
    exact hbdl
  · rw [hfl]
    rw [List.get?_set_ne _ st.flists hfne]
    exact hbfl
  · intro x hx
    exact hout x hx
  · intro i x hix
    have := hpos i x hix
    simpa using this

/-- Witness for C3 (amended) on a heap holding a two-frame instance `A`
(frames with 1 and 2 axes) and a one-frame instance `B`: the composite frame
list `[0, 1, 2]` is reindexed to the contiguous ranges `[0]`, `[1, 2]`,
`[3]`, `A`'s lists are extended in place and `B`'s are unchanged. -/
theorem and_shares_self_storage_and_reindexes_frames_witness :
    ∃ st', lutc_and ⟨[[0], [1, 2]], [[0, 1], [2]],
        [⟨1, [0]⟩, ⟨2, [1, 2]⟩, ⟨1, [0]⟩], [(0, 0), (1, 1)]⟩ 0 1 =
        .ok (st', 2, 0) ∧
      st'.lutcs = [(0, 0), (1, 1)] ++ [(0, 0)] ∧
      st'.dlists = [[0], [1, 2]].set 0 ([0] ++ [1, 2]) ∧
      st'.flists = [[0, 1], [2]].set 0 ([0, 1] ++ [2]) ∧
      st'.dlists.get? 1 = some [1, 2] ∧
      st'.flists.get? 1 = some [2] ∧
      (∀ x, x ∉ [0, 1] ++ [2] →
        st'.frames.get? x =
          ([⟨1, [0]⟩, ⟨2, [1, 2]⟩, ⟨1, [0]⟩] : List HFrame).get? x) ∧
      (∀ (i : Nat) (x : Nat), ([0, 1] ++ [2] : List Nat).get? i = some x →
        st'.frames.get? x =
          some ⟨frame_naxes_at [⟨1, [0]⟩, ⟨2, [1, 2]⟩, ⟨1, [0]⟩] x,
                pyRangeList
                  (axes_offset [⟨1, [0]⟩, ⟨2, [1, 2]⟩, ⟨1, [0]⟩] ([0, 1] ++ [2]) i)
                  (axes_offset [⟨1, [0]⟩, ⟨2, [1, 2]⟩, ⟨1, [0]⟩] ([0, 1] ++ [2]) i +
                    frame_naxes_at [⟨1, [0]⟩, ⟨2, [1, 2]⟩, ⟨1, [0]⟩] x) 1⟩) :=
  and_shares_self_storage_and_reindexes_frames
    ⟨[[0], [1, 2]], [[0, 1], [2]], [⟨1, [0]⟩, ⟨2, [1, 2]⟩, ⟨1, [0]⟩],
     [(0, 0), (1, 1)]⟩
    0 1 0 0 1 1 [0] [1, 2] [0, 1] [2]
    (by decide) (by decide) (by decide) (by decide) (by decide) (by decide)
    (by decide) (by decide) (by decide) (by decide)

/-- C3 counterexample: after `A & B` on two one-frame instances, `A`'s
delayed-model list object has changed (it was extended in place with `B`'s
model) and `B`'s frame object has changed (its axes-order was reassigned),
so the operands are not left unchanged. -/
theorem and_mutates_operands_cex :
    lutc_and ⟨[[0], [1]], [[0], [1]], [⟨1, [0]⟩, ⟨1, [0]⟩],
              [(0, 0), (1, 1)]⟩ 0 1 =
      .ok (⟨[[0, 1], [1]], [[0, 1], [1]], [⟨1, [0]⟩, ⟨1, [1]⟩],
            [(0, 0), (1, 1), (0, 0)]⟩, 2, 0) ∧
    ([[0, 1], [1]] : List (List Nat)) ≠ [[0], [1]] ∧
    (⟨1, [1]⟩ : HFrame) ≠ ⟨1, [0]⟩ := by
  decide

end NDCube
